import Mathlib

/-!
Verification development for the kube-demo terminal dashboard.

The program (cmd/main.go, with two earlier sibling iterations of the same
file) renders Kubernetes nodes as a grid of boxes, each containing a grid
of small pod boxes, with a keyboard-driven 2D cursor and an informer-driven
refresh channel.  The definitions below are a shallow embedding of the
arithmetic, ordering, rendering-control and channel-shape logic of that
source.  Go `int` arithmetic is modelled on `Int`: Go `/` is `Int.tdiv`
and Go `%` is `Int.tmod` (both truncate toward zero); a Go division or
remainder by zero panics, which the embedding models by returning `none`
from the function in which the panic would occur.
-/

namespace KubeDemo

/-- The `mod` helper (cmd/main.go:221-223): `return (a%b + b) % b`, where
Go `%` is the truncated remainder `Int.tmod`.  The divisor `b` is assumed
nonzero here; the zero-divisor panic is modelled at the call sites in
`moveCursor`. -/
def goMod (a b : Int) : Int := (Int.tmod a b + b).tmod b

/-- The slice of a lipgloss style that the layout arithmetic reads:
`GetWidth`, `GetHorizontalPadding`, `GetHorizontalMargins` and
`GetHorizontalBorderSize`. -/
structure Style where
  width : Int
  horizontalPadding : Int
  horizontalMargins : Int
  horizontalBorderSize : Int

/-- `canvasStyle` as it stands when layout runs (cmd/main.go:26 and 240):
`Padding(1, 2, 1, 2)` gives horizontal padding `2 + 2 = 4`, no margins and
no border; `View` sets `Width(physicalWidth)` from the terminal. -/
def canvasStyleAt (physicalWidth : Int) : Style :=
  { width := physicalWidth
    horizontalPadding := 4
    horizontalMargins := 0
    horizontalBorderSize := 0 }

/-- `nodeStyle` (cmd/main.go:38-47): `Width(30)`, `Padding(1)` gives
horizontal padding 2, `Margin(1)` gives horizontal margins 2, and the
hidden border has horizontal border size 2. -/
def nodeStyle : Style :=
  { width := 30
    horizontalPadding := 2
    horizontalMargins := 2
    horizontalBorderSize := 2 }

/-- `podStyle` (cmd/main.go:49-58): `Width(1)`, `Padding(0)`, `Margin(0)`,
rounded border with horizontal border size 2. -/
def podStyle : Style :=
  { width := 1
    horizontalPadding := 0
    horizontalMargins := 0
    horizontalBorderSize := 2 }

/-- `GetBoxesPerRow` (cmd/main.go:247-250):
`boxSize := sub.GetWidth() + sub.GetHorizontalMargins() + sub.GetHorizontalBorderSize()`
then `int(float64(container.GetWidth()-container.GetHorizontalPadding()) / float64(boxSize))`.
For the box sizes that occur in the program (34 and 3) and terminal-scale
widths, the float64 quotient is exact enough that the `int(...)` conversion
(truncation toward zero) coincides with `Int.tdiv`.  No lower bound of 1 is
applied anywhere in the function. -/
def GetBoxesPerRow (container subContainer : Style) : Int :=
  let boxSize := subContainer.width + subContainer.horizontalMargins +
    subContainer.horizontalBorderSize
  (container.width - container.horizontalPadding).tdiv boxSize

/-- The four directional keys handled by `moveCursor`. -/
inductive Dir
  | right
  | left
  | up
  | down
deriving DecidableEq

/-- `moveCursor` (cmd/main.go:179-217), parameterised by the values the Go
method reads: `selectedNode` (the stored cursor), `totalObjects`
(`len(m.nodeInformer.GetStore().ListKeys())`) and `perRow`
(`m.GetBoxesPerRow(canvasStyle, nodeStyle)`).  A Go `/` or `%` by zero
panics; every spot where the Go code would panic returns `none`, placed
exactly where the first division of that branch happens: the `right` and
`left` branches divide immediately (`selectedNode / perRow`), the `up`
branch computes `mod(index, perRow)` unconditionally, and the `down`
branch only reaches `index % perRow` when `index >= totalObjects`. -/
def moveCursor (dir : Dir) (selectedNode totalObjects perRow : Int) : Option Int :=
  match dir with
  | .right =>
    if perRow = 0 then none else
    let rowNum := selectedNode.tdiv perRow
    let index := selectedNode + 1
    if index ≥ totalObjects then some (index - index.tmod perRow)
    else some (rowNum * perRow + index.tmod perRow)
  | .left =>
    if perRow = 0 then none else
    let rowNum := selectedNode.tdiv perRow
    let index := rowNum * perRow + goMod (selectedNode - 1) perRow
    if index ≥ totalObjects then some (totalObjects - 1)
    else some index
  | .up =>
    if perRow = 0 then none else
    let index := selectedNode - perRow
    let col := goMod index perRow
    let bottomRow := totalObjects.tdiv perRow
    if index < 0 then
      let newPos := bottomRow * perRow + col
      if newPos ≥ totalObjects then some (newPos - perRow)
      else some (bottomRow * perRow + col)
    else some index
  | .down =>
    let index := selectedNode + perRow
    if index ≥ totalObjects then
      if perRow = 0 then none else some (index.tmod perRow)
    else some index

/-- A node as the ordering and rendering logic sees it: `Name`,
`CreationTimestamp.Unix()` and `UID`, plus the `Spec` payload kept opaque
as a string. -/
structure NodeEnt where
  name : String
  created : Int
  uid : String
  specPayload : String
deriving DecidableEq

/-- The detail branch of `View` (cmd/main.go:227-238): it indexes
`m.getNodes()[m.selectedNode]` — a Go slice index that panics when
`selectedNode` is negative or not below the slice length — and then
`yaml.Marshal`s the spec; on a marshal error it calls `panic(err)`.
Both panics are modelled as `none`; a successful render is `some` of the
serialized content.  `marshal` stands for `yaml.Marshal` on the node
payload, `none` meaning a serialization error.  No clamping of
`selectedNode` happens before the index. -/
def viewDetailBranch (nodes : List NodeEnt) (selectedNode : Int)
    (marshal : NodeEnt → Option String) : Option String :=
  if h : 0 ≤ selectedNode ∧ selectedNode.toNat < nodes.length then
    match marshal (nodes.get ⟨selectedNode.toNat, h.2⟩) with
    | some out => some out
    | none => none
  else none

/-- The creation-time/UID view of an object used by both sort comparators
(`getNodes` at cmd/main.go:281-288 and `pods` at cmd/main.go:303-310). -/
structure ObjMeta where
  created : Int
  uid : String
deriving DecidableEq

/-- The comparator passed to `sort.SliceStable` in both `getNodes` and
`pods`: creation timestamp ascending, ties broken by UID string
ascending. -/
def objLess (a b : ObjMeta) : Bool :=
  if a.created = b.created then decide (a.uid < b.uid)
  else decide (a.created < b.created)

/-- Stable insertion of `x` into a list already sorted by `objLess`: `x`
passes over exactly the elements strictly less than it, so elements the
comparator considers equal keep their original relative order — the
stability guarantee of `sort.SliceStable`. -/
def insertObj (x : ObjMeta) : List ObjMeta → List ObjMeta
  | [] => [x]
  | y :: ys => if objLess y x then y :: insertObj x ys else x :: y :: ys

/-- The ordering applied by `sort.SliceStable(..., objLess)` in `getNodes`
and `pods`, modelled as stable insertion sort (extensionally equal to any
stable comparator sort). -/
def sortObjs : List ObjMeta → List ObjMeta
  | [] => []
  | x :: xs => insertObj x (sortObjs xs)

/-- The sort key: the pair the comparator looks at. -/
def objKey (a : ObjMeta) : Int × String := (a.created, a.uid)

/-- A pod as the `pods` rendering loop sees it: the owner reference kinds
are all that the border-color scan reads. -/
structure PodEnt where
  ownerKinds : List String
deriving DecidableEq

/-- `defaultPodBorder` (cmd/main.go:36): teal. -/
def defaultPodBorder : String := "#27CEBD"

/-- The border color computed for one pod by the loop at
cmd/main.go:313-323: `color := podStyle.GetBorderBottomForeground()` (the
default pod border), then a scan of `pod.OwnerReferences` in which the
body of the `Kind == "DaemonSet"` match is commented out
(`// color = yellow`), so the scan assigns nothing and every pod keeps the
default color. -/
def podBorderColor (pod : PodEnt) : String :=
  pod.ownerKinds.foldl (fun color k => if k = "DaemonSet" then color else color)
    defaultPodBorder

/-- Default pod border color of the part_000 iteration
(src/unnamed/part_000:146). -/
def defaultColorPt0 : String := "#EE1111"

/-- DaemonSet pod border color of the part_000 iteration
(src/unnamed/part_000:147). -/
def dsColorPt0 : String := "#1111EE"

/-- The border colors assigned to a pod list by the part_000 iteration
(src/unnamed/part_000:145-182): `color` is declared once, before the pod
loop, and is only ever overwritten to `dsColor` when an owner reference of
kind DaemonSet is seen — it is never reset, so the value carries over from
one pod to the next. -/
def podBorderColorsPt0 (pods : List PodEnt) : List String :=
  (pods.foldl
    (fun acc pod =>
      let color := pod.ownerKinds.foldl
        (fun c k => if k = "DaemonSet" then dsColorPt0 else c) acc.2
      (acc.1 ++ [color], color))
    (([] : List String), defaultColorPt0)).1

/-- The state of a Go channel that matters for whether a send blocks:
its declared capacity, how many items sit in its buffer, and how many
receivers are currently blocked waiting on it. -/
structure GoChan where
  capacity : Nat
  buffered : Nat
  waitingReceivers : Nat
deriving DecidableEq

/-- Go channel send semantics: `ch <- v` completes immediately when a
receiver is already waiting (direct handoff) or when the buffer has spare
capacity; otherwise the sending goroutine blocks. -/
def sendWouldBlock (c : GoChan) : Bool :=
  decide (c.waitingReceivers = 0 ∧ c.capacity ≤ c.buffered)

/-- The `k8sStateUpdate` channel as created by `New`
(cmd/main.go:119: `make(chan struct{})`): unbuffered (capacity 0), shown
here in the state where no consumer read is pending — the state the
channel is in whenever the event loop is busy or has not yet re-armed its
reader, e.g. for every informer event delivered before the first
`k8sStateChange` message is processed. -/
def k8sStateUpdateChanIdle : GoChan :=
  { capacity := 0, buffered := 0, waitingReceivers := 0 }


/-! ## Helper lemmas -/

/-- For a positive divisor the Go truncated remainder is strictly greater
than `-b`, for every dividend sign. -/
theorem tmod_lower_bound (a : Int) {b : Int} (hb : 0 < b) : -b < a.tmod b := by
  rcases le_or_lt 0 a with ha | ha
  · have h0 : 0 ≤ a.tmod b := Int.tmod_nonneg b ha
    omega
  · have hneg : a.tmod b = -((-a).tmod b) := by
      rw [Int.tmod_def, Int.tmod_def, Int.neg_tdiv]; ring
    have h1 : (-a).tmod b < b := Int.tmod_lt_of_pos (-a) hb
    omega

theorem insertObj_perm (x : ObjMeta) (l : List ObjMeta) :
    (insertObj x l).Perm (x :: l) := by
  induction l with
  | nil => rfl
  | cons y ys ih =>
    unfold insertObj
    split
    · exact (ih.cons y).trans (List.Perm.swap x y ys)
    · rfl

theorem sortObjs_perm (l : List ObjMeta) : (sortObjs l).Perm l := by
  induction l with
  | nil => rfl
  | cons x xs ih => exact (insertObj_perm x (sortObjs xs)).trans (ih.cons x)

/-- The comparator decides the strict lexicographic order on
(creation time, UID). -/
theorem objLess_iff (a b : ObjMeta) :
    objLess a b = true ↔
      (a.created < b.created ∨ (a.created = b.created ∧ a.uid < b.uid)) := by
  by_cases h : a.created = b.created
  · simp [objLess, h]
  · simp [objLess, h]

theorem objLess_asymm {a b : ObjMeta} (h1 : objLess a b = true)
    (h2 : objLess b a = true) : False := by
  rw [objLess_iff] at h1 h2
  rcases h1 with h1 | ⟨e1, u1⟩ <;> rcases h2 with h2 | ⟨e2, u2⟩
  · omega
  · omega
  · omega
  · exact lt_asymm u1 u2

theorem objLess_flip_false {a b : ObjMeta} (h : objLess a b = true) :
    objLess b a = false := by
  cases h2 : objLess b a
  · rfl
  · exact absurd (objLess_asymm h h2) not_false

theorem objLess_eq_false_iff (a b : ObjMeta) :
    objLess a b = false ↔
      ¬ (a.created < b.created ∨ (a.created = b.created ∧ a.uid < b.uid)) := by
  rw [← objLess_iff]
  simp

/-- The comparator is a strict weak order: its complement is transitive. -/
theorem objLE_trans {a b c : ObjMeta} (h1 : objLess b a = false)
    (h2 : objLess c b = false) : objLess c a = false := by
  rw [objLess_eq_false_iff] at h1 h2 ⊢
  push_neg at h1 h2 ⊢
  obtain ⟨hc1, hu1⟩ := h1
  obtain ⟨hc2, hu2⟩ := h2
  constructor
  · omega
  · intro e
    have e1 : b.created = a.created := by omega
    have e2 : c.created = b.created := by omega
    exact le_trans (hu1 e1) (hu2 e2)

theorem objLess_total_of_key_ne {a b : ObjMeta} (h : objKey a ≠ objKey b) :
    objLess a b = true ∨ objLess b a = true := by
  rw [objLess_iff, objLess_iff]
  rcases lt_trichotomy a.created b.created with hc | hc | hc
  · exact Or.inl (Or.inl hc)
  · rcases lt_trichotomy a.uid b.uid with hu | hu | hu
    · exact Or.inl (Or.inr ⟨hc, hu⟩)
    · exact absurd (by simp [objKey, hc, hu]) h
    · exact Or.inr (Or.inr ⟨hc.symm, hu⟩)
  · exact Or.inr (Or.inl hc)

theorem objLess_true_of_ne_of_flip_false {a b : ObjMeta}
    (h : objLess b a = false) (hne : objKey a ≠ objKey b) :
    objLess a b = true := by
  rcases objLess_total_of_key_ne hne with h1 | h1
  · exact h1
  · rw [h1] at h
    cases h

theorem pairwise_insertObj {x : ObjMeta} {l : List ObjMeta}
    (hl : l.Pairwise (fun a b => objLess b a = false)) :
    (insertObj x l).Pairwise (fun a b => objLess b a = false) := by
  induction l with
  | nil => simp [insertObj]
  | cons y ys ih =>
    rcases List.pairwise_cons.mp hl with ⟨hy, hys⟩
    unfold insertObj
    split
    · rename_i hyx
      refine List.pairwise_cons.mpr ⟨?_, ih hys⟩
      intro z hz
      rcases List.mem_cons.mp ((insertObj_perm x ys).mem_iff.mp hz) with rfl | hz'
      · exact objLess_flip_false hyx
      · exact hy z hz'
    · rename_i hyx
      have hyx' : objLess y x = false := by
        cases h : objLess y x
        · rfl
        · exact absurd h hyx
      refine List.pairwise_cons.mpr ⟨?_, hl⟩
      intro z hz
      rcases List.mem_cons.mp hz with rfl | hz'
      · exact hyx'
      · exact objLE_trans hyx' (hy z hz')

theorem sortObjs_pairwise (l : List ObjMeta) :
    (sortObjs l).Pairwise (fun a b => objLess b a = false) := by
  induction l with
  | nil => simp [sortObjs]
  | cons x xs ih => exact pairwise_insertObj ih

/-- On a list with pairwise-distinct (creation time, UID) keys the sorted
output is strictly increasing in the comparator order. -/
theorem sortObjs_pairwise_lt {l : List ObjMeta}
    (hkeys : l.Pairwise fun a b => objKey a ≠ objKey b) :
    (sortObjs l).Pairwise (fun a b => objLess a b = true) := by
  have hkeys2 : (sortObjs l).Pairwise (fun a b => objKey a ≠ objKey b) :=
    (sortObjs_perm l).symm.pairwise hkeys (fun h => Ne.symm h)
  have hboth := (sortObjs_pairwise l).and hkeys2
  exact hboth.imp (fun h => objLess_true_of_ne_of_flip_false h.1 h.2)

theorem sortObjs_eq_of_perm {l1 l2 : List ObjMeta} (hp : l1.Perm l2)
    (hkeys : l1.Pairwise fun a b => objKey a ≠ objKey b) :
    sortObjs l1 = sortObjs l2 := by
  have hkeys2 : l2.Pairwise (fun a b => objKey a ≠ objKey b) :=
    hp.pairwise hkeys (fun h => Ne.symm h)
  have hperm : (sortObjs l1).Perm (sortObjs l2) :=
    ((sortObjs_perm l1).trans hp).trans (sortObjs_perm l2).symm
  haveI : IsAntisymm ObjMeta (fun a b => objLess a b = true) :=
    ⟨fun a b h1 h2 => (objLess_asymm h1 h2).elim⟩
  exact List.eq_of_perm_of_sorted hperm (sortObjs_pairwise_lt hkeys)
    (sortObjs_pairwise_lt hkeys2)

theorem foldl_scan_noop (ks : List String) (c : String) :
    ks.foldl (fun color k => if k = "DaemonSet" then color else color) c = c := by
  induction ks generalizing c with
  | nil => rfl
  | cons k ks ih =>
    show ks.foldl (fun color k => if k = "DaemonSet" then color else color)
        (if k = "DaemonSet" then c else c) = c
    rw [ite_self]
    exact ih c

/-! ## Claim theorems -/

/-- C1: the claim says that on every render pass the cursor index is
clamped into `[0, max 1 (number of parents))` before rendering.  The code
performs no such clamp anywhere: `View` in detail mode indexes
`m.getNodes()[m.selectedNode]` directly, so after the node count shrinks
from at least 6 to 3 while `selectedNode` is 5, the next render panics
(`none`) instead of clamping 5 to 2; the stored index 5 indeed violates
`5 < max 1 3`.  Marshalling is made to succeed, isolating the index
panic. -/
theorem stale_cursor_detail_render_panics :
    viewDetailBranch
      [⟨"n0", 0, "a", "s0"⟩, ⟨"n1", 1, "b", "s1"⟩, ⟨"n2", 2, "c", "s2"⟩]
      5 (fun n => some n.specPayload) = none ∧
    ¬ ((5:Int) < max 1 3) := by decide

/-- C2: the claim says `GetBoxesPerRow` always returns at least 1, also for
a container narrower than one box.  The code applies no lower bound: at a
20-column terminal the canvas width is 20, its horizontal padding 4, and a
node box footprint is `30 + 2 + 2 = 34`, so the function returns
`⌊16 / 34⌋ = 0`, not a value `≥ 1`. -/
theorem getBoxesPerRow_zero_on_narrow_terminal :
    GetBoxesPerRow (canvasStyleAt 20) nodeStyle = 0 ∧
    ¬ 1 ≤ GetBoxesPerRow (canvasStyleAt 20) nodeStyle := by decide

/-- C3 counterexample: with `total = 3` and `per_row = 3` (a single full
row), a right move from the last index 2 computes `next = 3 ≥ total` and
returns `3 - 3 % 3 = 3`, which is out of range (`¬ 3 < 3`) and is not the
first index of index 2's row (that first index is `3 * (2 / 3) = 0`), so
the claim as stated fails whenever the last row is full. -/
theorem right_from_last_full_row_out_of_range :
    moveCursor .right 2 3 3 = some 3 ∧ ¬ ((3:Int) < 3) ∧
    3 * ((2:Int).tdiv 3) = 0 := by decide

/-- C3 (amended): for `total ≥ 1`, `per_row ≥ 1` whose last row is ragged
(`total % per_row ≠ 0`), a right move from the last index returns
`next - next % per_row` with `next = total`, which is the first index of
that index's own row and is in range; when `total % per_row = 0` the move
instead returns `total`, one past the end. -/
theorem right_from_last_index_ragged (total perRow : Int)
    (htot : 0 < total) (hper : 0 < perRow) (hrag : total.tmod perRow ≠ 0) :
    moveCursor .right (total - 1) total perRow =
      some (perRow * ((total - 1).tdiv perRow)) ∧
    0 ≤ perRow * ((total - 1).tdiv perRow) ∧
    perRow * ((total - 1).tdiv perRow) < total := by
  have hper0 : perRow ≠ 0 := by omega
  have h1 : total - 1 + 1 = total := by omega
  have hmod : total.tmod perRow = total % perRow :=
    Int.tmod_eq_emod (by omega) (by omega)
  have hdiv : (total - 1).tdiv perRow = (total - 1) / perRow :=
    Int.tdiv_eq_ediv (by omega) (by omega)
  have hr0 : 0 ≤ total % perRow := Int.emod_nonneg _ hper0
  have hrlt : total % perRow < perRow := Int.emod_lt_of_pos _ hper
  have hr1 : 1 ≤ total % perRow := by
    rw [hmod] at hrag; omega
  have heq : perRow * (total / perRow) + total % perRow = total :=
    Int.ediv_add_emod total perRow
  have hq0 : 0 ≤ total / perRow := Int.ediv_nonneg (by omega) (by omega)
  have hstep : (total - 1) / perRow = total / perRow := by
    have h2 : total - 1 = total % perRow - 1 + total / perRow * perRow := by
      linarith [heq, mul_comm perRow (total / perRow)]
    rw [h2, Int.add_mul_ediv_right _ _ hper0,
      Int.ediv_eq_zero_of_lt (by omega) (by omega), zero_add]
  refine ⟨?_, ?_, ?_⟩
  · simp only [moveCursor, if_neg hper0]
    split
    · congr 1
      rw [h1, hmod, hdiv, hstep]
      linarith [heq, mul_comm perRow (total / perRow)]
    · omega
  · rw [hdiv, hstep]
    exact mul_nonneg (le_of_lt hper) hq0
  · rw [hdiv, hstep]
    linarith [heq]

/-- C3 witness: the amended statement at `total = 7`, `per_row = 3`
(ragged last row): right from index 6 lands on `3 * (6 / 3) = 6`, the
first index of the bottom row, in range. -/
theorem right_from_last_index_ragged_witness :
    moveCursor .right (7 - 1) 7 3 = some (3 * (((7:Int) - 1).tdiv 3)) ∧
    0 ≤ 3 * (((7:Int) - 1).tdiv 3) ∧ 3 * (((7:Int) - 1).tdiv 3) < 7 :=
  right_from_last_index_ragged 7 3 (by decide) (by decide) (by decide)

/-- C4: the claim says a detail-view serialization failure is rendered as
a recoverable error placeholder instead of aborting.  The code instead
calls `panic(err)` (cmd/main.go:235-237): with a marshaller that fails on
the selected node's payload, the render aborts (`none`) rather than
producing any fallback canvas. -/
theorem detail_marshal_failure_panics :
    viewDetailBranch [⟨"n0", 0, "a", "s0"⟩] 0 (fun _ => none) = none := by decide

/-- C5 counterexample: in cmd/main.go a pod whose owner references carry
the DaemonSet marker is still rendered with the default border color (the
alternate-color assignment in the scan is commented out), and in the
part_000 iteration the color variable is shared across pods, so a pod
without the marker that follows a DaemonSet-owned pod also receives the
alternate color — both directions of the claimed iff fail. -/
theorem daemonset_pod_rendered_default_color :
    ("DaemonSet" ∈ (PodEnt.mk ["DaemonSet"]).ownerKinds ∧
      podBorderColor ⟨["DaemonSet"]⟩ = defaultPodBorder) ∧
    podBorderColorsPt0 [⟨["DaemonSet"]⟩, ⟨[]⟩] = [dsColorPt0, dsColorPt0] := by decide

/-- C5 (amended): in cmd/main.go every child box is rendered with the
default border color regardless of its ownership tags: the DaemonSet scan
is present but assigns nothing, so the border-color classification is
constant. -/
theorem podBorderColor_always_default (pod : PodEnt) :
    podBorderColor pod = defaultPodBorder := by
  obtain ⟨ks⟩ := pod
  exact foldl_scan_noop ks defaultPodBorder

/-- C6 counterexample: the claim says the bridge never blocks the
notifier.  `k8sStateUpdate` is created unbuffered, so in the reachable
state where no consumer read is pending (e.g. any informer event before
the first `k8sStateChange` message is consumed) a notification send
blocks the notifier. -/
theorem notifier_blocks_on_idle_channel :
    sendWouldBlock k8sStateUpdateChanIdle = true := by decide

/-- C6 (amended): the bridge is a blocking rendezvous, not a coalescing
buffer: the channel has capacity 0, a send blocks exactly when no receiver
is waiting, and completes by direct handoff when one is — so no change
notification is ever dropped, but the notifier stalls whenever the
consumer is slow and rapid notifications serialize instead of
coalescing. -/
theorem k8sStateUpdate_blocking_handoff :
    k8sStateUpdateChanIdle.capacity = 0 ∧
    (∀ b : Nat, sendWouldBlock ⟨0, b, 0⟩ = true) ∧
    (∀ b r : Nat, 0 < r → sendWouldBlock ⟨0, b, r⟩ = false) := by
  refine ⟨rfl, ?_, ?_⟩
  · intro b
    simp [sendWouldBlock]
  · intro b r hr
    simp [sendWouldBlock]
    omega

/-- C6 witness: with one waiting receiver a send completes without
blocking. -/
theorem k8sStateUpdate_blocking_handoff_witness :
    (0:Nat) < 1 ∧ sendWouldBlock ⟨0, 0, 1⟩ = false :=
  ⟨by decide, k8sStateUpdate_blocking_handoff.2.2 0 1 (by decide)⟩

/-- C7: the snapshot ordering is deterministic: for any two delivery orders
of the same entity set (a permutation) whose (creation time, UID) keys are
pairwise distinct, the sorted sequences are identical, and the output is
ordered by creation time ascending with ties broken by UID ascending. -/
theorem snapshot_ordering_deterministic (l1 l2 : List ObjMeta)
    (hperm : l1.Perm l2)
    (hkeys : l1.Pairwise fun a b => objKey a ≠ objKey b) :
    sortObjs l1 = sortObjs l2 ∧
    (sortObjs l1).Pairwise (fun a b =>
      a.created < b.created ∨ (a.created = b.created ∧ a.uid < b.uid)) :=
  ⟨sortObjs_eq_of_perm hperm hkeys,
    (sortObjs_pairwise_lt hkeys).imp (fun h => (objLess_iff _ _).mp h)⟩

/-- C7 witness: two delivery orders of the same two-entity set sort to the
same sequence. -/
theorem snapshot_ordering_deterministic_witness :
    sortObjs [⟨1, "b"⟩, ⟨0, "a"⟩] = sortObjs [⟨0, "a"⟩, ⟨1, "b"⟩] :=
  (snapshot_ordering_deterministic _ _ (List.Perm.swap _ _ _) (by decide)).1

/-- C8: with 7 parents and `per_row = 3`, a down move from index 6
computes `6 + 3 = 9 ≥ 7` and wraps to `9 % 3 = 0`; an up move from
index 0 computes candidate `0 - 3 = -3`, whose column is
`mod(-3, 3) = 0`, and wraps to the bottom row `7 / 3 = 2` at column 0,
landing on index 6 (valid, since `6 < 7`). -/
theorem scenario_seven_parents_wrap :
    moveCursor .down 6 7 3 = some 0 ∧ (6:Int) + 3 ≥ 7 ∧
    moveCursor .up 0 7 3 = some 6 ∧ (0:Int) - 3 = -3 ∧ goMod (-3) 3 = 0 := by decide

/-- C9: for every `a` and every `b > 0` the true-modulus helper `mod`
returns a value in `[0, b)`, including for negative dividends. -/
theorem mod_result_in_range (a b : Int) (hb : 0 < b) :
    0 ≤ goMod a b ∧ goMod a b < b := by
  have hlow : -b < a.tmod b := tmod_lower_bound a hb
  have hnn : 0 ≤ a.tmod b + b := by omega
  have hb0 : (0:Int) ≤ b := le_of_lt hb
  unfold goMod
  rw [Int.tmod_eq_emod hnn hb0]
  exact ⟨Int.emod_nonneg _ (by omega), Int.emod_lt_of_pos _ hb⟩

/-- C9 witness: `mod(-7, 3) = 2` lies in `[0, 3)`. -/
theorem mod_result_in_range_witness :
    (0:Int) < 3 ∧ 0 ≤ goMod (-7) 3 ∧ goMod (-7) 3 < 3 :=
  ⟨by decide, (mod_result_in_range (-7) 3 (by decide)).1,
    (mod_result_in_range (-7) 3 (by decide)).2⟩

/-- C10: `moveCursor` never faults when `per_row ≥ 1`; and at the
reachable state of a 20-column terminal (so
`GetBoxesPerRow(canvasStyle, nodeStyle) = 0`) with an empty node store and
cursor 0, every one of the four directional moves performs a Go division
or remainder by zero and panics. -/
theorem moveCursor_total_iff_perRow_nonzero :
    (∀ (dir : Dir) (sel tot perRow : Int), 1 ≤ perRow →
      (moveCursor dir sel tot perRow).isSome = true) ∧
    GetBoxesPerRow (canvasStyleAt 20) nodeStyle = 0 ∧
    ∀ dir : Dir, moveCursor dir 0 0 (GetBoxesPerRow (canvasStyleAt 20) nodeStyle) = none := by
  refine ⟨?_, by decide, ?_⟩
  · intro dir sel tot p hp
    have hp0 : p ≠ 0 := by omega
    cases dir <;> simp only [moveCursor, if_neg hp0] <;> (repeat' split) <;> simp [hp0]
  · intro dir
    cases dir <;> decide

/-- C10 witness: a right move with `per_row = 3` succeeds, while an up
move at the degenerate geometry panics. -/
theorem moveCursor_total_iff_perRow_nonzero_witness :
    (moveCursor .right 4 7 3).isSome = true ∧
    moveCursor .up 0 0 (GetBoxesPerRow (canvasStyleAt 20) nodeStyle) = none :=
  ⟨moveCursor_total_iff_perRow_nonzero.1 .right 4 7 3 (by decide),
    moveCursor_total_iff_perRow_nonzero.2.2 .up⟩

end KubeDemo
